import Mathlib

/-!
Shallow embedding of the ferdyflip-vrf-server fulfillment engine
(`src/python`), covering the poll scanner (`fulfillment/service.py`), the
subscribe scanner (`fulfillment/service_subscribe.py`), the VRF client and
multisend dispatcher (`web3_client/client.py`), the poll server bootstrap
(`server.py`) and the configuration loader (`utils/config.py`).

Python machine integers are modelled as `Int` (block numbers, nonces,
timestamps) or `Nat` (request ids, randomness); Python `set` state is
modelled by a `List Nat` used only through membership; fallible code is
modelled with `Except`/`Option`; the single nondeterministic source
(`secrets.randbelow`) is modelled by a seed reduced modulo the bound.
-/

/-! ## Data model -/

/-- A decoded RandomWordsRequested event (EventData as consumed by
`fulfill_event`): `args.requestId`, `args.subId`, `args.callbackGasLimit`,
`args.numWords`, `args.sender` and the top-level `blockNumber`. Addresses
are modelled as `Nat`. -/
structure RequestEvent where
  requestId : Nat
  subId : Nat
  callbackGasLimit : Nat
  numWords : Nat
  sender : Nat
  blockNumber : Int
deriving DecidableEq, Repr

/-- A decoded RandomWordsFulfilled event; only `args.requestId` is read by
the scanners. -/
structure FulfilledEvent where
  requestId : Nat
  blockNumber : Int
deriving DecidableEq, Repr

/-- The pair of event lists returned by `ChainVrfClient.get_vrf_logs` for
one block window. -/
structure ScanWindow where
  requested : List RequestEvent
  fulfilled : List FulfilledEvent
deriving DecidableEq, Repr

/-- The `rc` dict built in `Fulfiller.fulfill_event`
(service.py lines 127-133): the RequestCommitment 5-tuple. -/
structure RequestCommitment where
  blockNum : Int
  subId : Nat
  callbackGasLimit : Nat
  numWords : Nat
  sender : Nat
deriving DecidableEq, Repr

/-- One call to `client.fulfill_random_words(request_id, randomness, rc)`. -/
structure FulfillCall where
  requestId : Nat
  randomness : Nat
  rc : RequestCommitment
deriving DecidableEq, Repr

/-! ## Poll server bootstrap and window bounds -/

/-- server.py line 31: `last_block = max(client.get_latest_block_number() - 1_900, 1)`. -/
def bootstrapLastBlock (chainHead : Int) : Int :=
  max (chainHead - 1900) 1

/-- service.py lines 51-61, one loop iteration of `Fulfiller.start_scan`:
if there was no progress the iteration does nothing (`none`); otherwise the
scan range is `scan_block = last_block - 50` (no clamping in the source)
and `scan_end_block = min(scan_block + 1900, current_block)`. -/
def scanBounds (lastBlock currentBlock : Int) : Option (Int × Int) :=
  if currentBlock ≤ lastBlock then none
  else some (lastBlock - 50, min (lastBlock - 50 + 1900) currentBlock)

/-! ## Poll scanner filter pipeline (service.py lines 66-88) -/

/-- service.py lines 69-85: given the configured `delay_blocks`, the window
end block, the current `fulfilled_ids` set and the fetched window, compute
the new `fulfilled_ids` set and the list of events handed to
`submit_fulfill_event`, in order. Matches the source exactly: requests
whose id appears in the fulfilled logs are stripped, then requests already
in the local set, then requests newer than `scan_end_block - delay_blocks`;
every surviving event has its id added to the set and is dispatched. -/
def processWindow (delayBlocks scanEndBlock : Int) (fulfilledIds : List Nat)
    (w : ScanWindow) : List Nat × List RequestEvent :=
  let chainFulfilledIds := w.fulfilled.map (fun x => x.requestId)
  let pending1 := w.requested.filter (fun x => decide (x.requestId ∉ chainFulfilledIds))
  let pending2 := pending1.filter (fun x => decide (x.requestId ∉ fulfilledIds))
  let delayBlock := scanEndBlock - delayBlocks
  let pending3 := pending2.filter (fun x => decide (x.blockNumber ≤ delayBlock))
  (fulfilledIds ++ pending3.map (fun x => x.requestId), pending3)

/-- A scan tick: the window contents together with the `scan_end_block`
that iteration used. -/
structure ScanTick where
  window : ScanWindow
  scanEnd : Int
deriving DecidableEq, Repr

/-- Run the poll scanner over a sequence of ticks, threading the
`fulfilled_ids` set, and collect every event dispatched to the worker
pool. -/
def runScan (delayBlocks : Int) (fulfilledIds : List Nat) :
    List ScanTick → List Nat × List RequestEvent
  | [] => (fulfilledIds, [])
  | t :: ts =>
    let r1 := processWindow delayBlocks t.scanEnd fulfilledIds t.window
    let r2 := runScan delayBlocks r1.1 ts
    (r2.1, r1.2 ++ r2.2)

/-! ## Subscribe scanner (service_subscribe.py) -/

/-- service_subscribe.py lines 119-129, `_handle_requested_event`: skip if
the id is already in `fulfilled_ids`, otherwise add it *before*
dispatching the fulfillment task. Returns the new set and the dispatched
events (at most one). Note the source consults only `fulfilled_ids` here:
`delay_blocks` plays no part on this path. -/
def handleRequestedEvent (fulfilledIds : List Nat) (e : RequestEvent) :
    List Nat × List RequestEvent :=
  if e.requestId ∈ fulfilledIds then (fulfilledIds, [])
  else (fulfilledIds ++ [e.requestId], [e])

/-- Feed a list of requested events one at a time through
`_handle_requested_event`, collecting dispatches. This is both the
backfill dispatch loop (lines 112-113) and the live requested route. -/
def runHandleRequested (fulfilledIds : List Nat) :
    List RequestEvent → List Nat × List RequestEvent
  | [] => (fulfilledIds, [])
  | e :: es =>
    let r1 := handleRequestedEvent fulfilledIds e
    let r2 := runHandleRequested r1.1 es
    (r2.1, r1.2 ++ r2.2)

/-- service_subscribe.py lines 95-113, `_backfill` filter pipeline: strip
requests fulfilled on chain, strip requests in the local set, and  only
when `delay_blocks` is nonzero  strip requests newer than
`current_block - delay_blocks`; the survivors are then fed through
`_handle_requested_event`. -/
def backfillWindow (delayBlocks currentBlock : Int) (fulfilledIds : List Nat)
    (w : ScanWindow) : List Nat × List RequestEvent :=
  let chainFulfilledIds := w.fulfilled.map (fun x => x.requestId)
  let pending1 := w.requested.filter (fun x => decide (x.requestId ∉ chainFulfilledIds))
  let pending2 := pending1.filter (fun x => decide (x.requestId ∉ fulfilledIds))
  let pending3 :=
    if delayBlocks ≠ 0 then
      pending2.filter (fun x => decide (x.blockNumber ≤ currentBlock - delayBlocks))
    else pending2
  runHandleRequested fulfilledIds pending3

/-- A raw log routed by the live subscription loop
(service_subscribe.py lines 74-90), already split by topic0. -/
inductive LogEntry
  | requested (e : RequestEvent)
  | fulfilled (f : FulfilledEvent)
deriving DecidableEq, Repr

/-- service_subscribe.py lines 74-90: route one live log. A requested log
goes to `_handle_requested_event`; a fulfilled log only records its id. -/
def subscribeLiveStep (fulfilledIds : List Nat) : LogEntry → List Nat × List RequestEvent
  | .requested e => handleRequestedEvent fulfilledIds e
  | .fulfilled f => (fulfilledIds ++ [f.requestId], [])

/-! ## Subscribe scanner error flow (service_subscribe.py lines 47-117) -/

/-- Actions the supervisor loop `SubscribeFulfiller.start` can take after
one `_run_subscription` attempt. -/
inductive SupervisorAction
  | alert
  | sleepReconnect
deriving DecidableEq, Repr

/-- service_subscribe.py lines 92-117: the whole body of `_backfill` is
wrapped in try/except whose handler prints and returns, so `_backfill`
never lets an error escape, whatever error its body hit. -/
def backfillRun (bodyErr : Option String) : Except String Unit :=
  match bodyErr with
  | some _ => Except.ok ()
  | none => Except.ok ()

/-- service_subscribe.py lines 58-90, one `_run_subscription` attempt,
with the error (if any) each phase would raise modelled as an input:
the backfill phase runs first but catches its own errors; an error in the
subscription or live loop propagates to the caller. -/
def runSubscriptionOnce (backfillErr liveErr : Option String) : Except String Unit :=
  match backfillRun backfillErr with
  | Except.error e => Except.error e
  | Except.ok () =>
    match liveErr with
    | some e => Except.error e
    | none => Except.ok ()

/-- service_subscribe.py lines 49-56, one iteration of the supervisor loop
in `start`: the alert hook fires only inside the except clause; the
reconnect sleep runs unconditionally after the attempt. -/
def superviseOnce (r : Except String Unit) : List SupervisorAction :=
  match r with
  | Except.error _ => [SupervisorAction.alert, SupervisorAction.sleepReconnect]
  | Except.ok _ => [SupervisorAction.sleepReconnect]

/-! ## Worker pool submit path (service.py lines 100-118) -/

/-- Side effects of `Fulfiller.submit_fulfill_event` visible outside the
worker task itself. -/
inductive WorkerAction
  | refreshNonce
  | alertDelayFulfill
  | submitTask
deriving DecidableEq, Repr

/-- The shared worker-pool counters: `outstanding_fulfillments` and
`last_fulfill_action`. Timestamps are exact (`time.time()` values that are
representable, e.g. whole seconds). -/
structure WorkerState where
  outstanding : Int
  lastFulfillAction : Int
deriving DecidableEq, Repr

/-- service.py lines 100-118, `submit_fulfill_event`: `refresh_nonce` is
called iff `not outstanding_fulfillments` (i.e. the counter is zero) and
`time.time() - last_fulfill_action > 4` (strict); a delay-mode alert fires
iff `delay_blocks` is nonzero; then the counters are updated and the task
is submitted. -/
def submitFulfillEvent (delayBlocks : Int) (now : Int) (st : WorkerState) :
    List WorkerAction × WorkerState :=
  let refreshActs := if st.outstanding = 0 ∧ now - st.lastFulfillAction > 4
    then [WorkerAction.refreshNonce] else []
  let alertActs := if delayBlocks ≠ 0 then [WorkerAction.alertDelayFulfill] else []
  (refreshActs ++ alertActs ++ [WorkerAction.submitTask],
   { outstanding := st.outstanding + 1, lastFulfillAction := now })

/-! ## Worker task (service.py lines 120-138) -/

/-- Model of `secrets.randbelow(n)`: an arbitrary draw from the CSPRNG,
represented by a seed reduced into the range `[0, n)`. -/
def secretsRandbelow (seed n : Nat) : Nat :=
  seed % n

/-- service.py lines 120-138, the happy path of `fulfill_event`: draw
`randomness = secrets.randbelow(2 ** 256)`, build the commitment dict
verbatim from the event fields, and make the single
`fulfill_random_words` call. Returns the list of contract calls made. -/
def fulfillEventCalls (seed : Nat) (e : RequestEvent) : List FulfillCall :=
  let randomness := secretsRandbelow seed (2 ^ 256)
  let rc : RequestCommitment :=
    { blockNum := e.blockNumber
      subId := e.subId
      callbackGasLimit := e.callbackGasLimit
      numWords := e.numWords
      sender := e.sender }
  [{ requestId := e.requestId, randomness := randomness, rc := rc }]

/-! ## Nonce ledger (web3_client/client.py lines 139-174) -/

/-- client.py lines 150-154, `ChainVrfClient.build_base_tx`: the tx takes
the cached nonce and the cache is post-incremented. Returns
(nonce placed in the tx, new cached nonce). -/
def buildBaseTx (cachedNonce : Int) : Int × Int :=
  (cachedNonce, cachedNonce + 1)

/-- Failure injection points along
`fulfill_random_words` → `build_contract_tx` → `sign` → `send`:
`build` covers `contract_function.build_transaction` raising after
`build_base_tx` already ran, `sign` covers `sign_tx`, `send` covers the
send path raising after the signed tx was handed to it. -/
inductive StepFail
  | build
  | sign
  | send
deriving DecidableEq, Repr

/-- client.py lines 62-65 and 170-174 with service.py lines 120-145: one
fulfillment attempt through the nonce ledger. Returns (outcome, new cached
nonce, nonces of signed txs handed to the send path). `build_base_tx`
draws and increments the nonce before any failure point, and nothing in
the source rolls the cache back on failure. -/
def fulfillPipeline (cachedNonce : Int) (fail : Option StepFail) :
    Except StepFail Unit × Int × List Int :=
  let r := buildBaseTx cachedNonce
  match fail with
  | some StepFail.build => (Except.error StepFail.build, r.2, [])
  | some StepFail.sign => (Except.error StepFail.sign, r.2, [])
  | some StepFail.send => (Except.error StepFail.send, r.2, [r.1])
  | none => (Except.ok (), r.2, [r.1])

/-! ## Multisend dispatcher (web3_client/client.py lines 197-224) -/

/-- client.py lines 197-224, `sign_and_multisend_tx`, after the
`concurrent.futures.wait(tx_futures, timeout=0.5)` call: `done` is the
list of completed broadcast futures, each carrying its `exception()`
result (`none` when the broadcast completed without error); futures still
pending at the timeout are simply abandoned. `accepted` keeps the
completed futures with no exception; if `accepted` is empty while `done`
is not, the first completed future exception is raised; otherwise the
locally computed hash of the signed tx is returned. -/
def signAndMultisendTx (txHash : Nat) (done : List (Option String)) :
    Except (Option String) Nat :=
  let accepted := done.filter (fun x => x.isNone)
  if accepted.isEmpty ∧ ¬ done.isEmpty then
    Except.error (done.headD none)
  else
    Except.ok txHash

/-! ## Client construction (utils/config.py, web3_client/client.py) -/

/-- Parameter names (after `self`) of `ChainVrfClient.__init__`
(client.py line 131). -/
def chainVrfClientInitParams : List String :=
  ["w3", "account", "address", "max_gas_price_in_gwei"]

/-- Parameter names (after `self`) of `MultisendChainVrfClient.__init__`
(client.py lines 184-185). -/
def multisendChainVrfClientInitParams : List String :=
  ["providers", "account", "address", "max_gas_price_in_gwei"]

/-- Keyword arguments passed beyond the positional ones by
`Config.create_client` (config.py lines 64-69). -/
def createClientKwargs : List String :=
  ["use_vrf_v25"]

/-- Keyword arguments passed beyond the positional ones by
`Config.create_multisend_client` (config.py lines 71-77). -/
def createMultisendClientKwargs : List String :=
  ["use_vrf_v25"]

/-- A Python call binds successfully only if every keyword argument names
a declared parameter; otherwise `TypeError` is raised before the body
runs. -/
def kwargsAccepted (params kwargs : List String) : Bool :=
  kwargs.all (fun k => params.contains k)

/-! ## Configuration dictionary (utils/config.py lines 20-24) -/

/-- Insert one key/value pair into a Python-dict model (later insertion
wins on lookup). -/
def dictSet (d : String → Option String) (kv : String × String) :
    String → Option String :=
  fun k => if k = kv.1 then some kv.2 else d k

/-- Build a Python-dict model from a pair list, in order. -/
def dictOfPairs (ps : List (String × String)) : String → Option String :=
  ps.foldl dictSet (fun _ => none)

/-- config.py lines 21-24: `self.config = {**dotenv_values(...), **os.environ}`
as a dict literal: the dotenv pairs are inserted first, then every
environment pair on top of them. -/
def configDict (dotenvVals envVals : List (String × String)) :
    String → Option String :=
  (dotenvVals ++ envVals).foldl dictSet (fun _ => none)

/-! ## Helper lemmas -/

lemma filter_isNone_nil_iff (l : List (Option String)) :
    (l.filter (fun x => x.isNone)).isEmpty = true ↔ ∀ x ∈ l, x ≠ none := by
  simp [List.isEmpty_iff, List.filter_eq_nil_iff, Option.isNone_iff_eq_none]

/-! ## C3: multisend dispatcher result -/

/-- C3. The multisend dispatcher returns the locally computed hash of the
signed transaction whenever at least one broadcast completed without
error, and also when no broadcast completed within the timeout (`done`
empty); it raises the first completed error exactly when every completed
broadcast erred and at least one completed. -/
theorem multisend_dispatcher_result (txHash : Nat) (done : List (Option String)) :
    (signAndMultisendTx txHash done = Except.ok txHash ↔
      done = [] ∨ ∃ x ∈ done, x = none) ∧
    ((∀ x ∈ done, x ≠ none) → done ≠ [] →
      signAndMultisendTx txHash done = Except.error (done.headD none)) := by
  unfold signAndMultisendTx
  by_cases hempty : done = []
  · subst hempty
    simp
  · by_cases hall : ∀ x ∈ done, x ≠ none
    · have hcond : ((done.filter (fun x => x.isNone)).isEmpty = true) :=
        (filter_isNone_nil_iff done).mpr hall
      rw [if_pos ⟨hcond, fun h => hempty (List.isEmpty_iff.mp h)⟩]
      constructor
      · constructor
        · intro h
          exact Except.noConfusion h
        · rintro (h | ⟨x, hx, hxn⟩)
          · exact absurd h hempty
          · exact absurd hxn (hall x hx)
      · intro _ _
        rfl
    · have hcond : ¬ ((done.filter (fun x => x.isNone)).isEmpty = true) := by
        intro h
        exact hall ((filter_isNone_nil_iff done).mp h)
      rw [if_neg (by intro h; exact hcond h.1)]
      push_neg at hall
      obtain ⟨x, hx, hxn⟩ := hall
      constructor
      · simp only [true_iff]
        exact Or.inr ⟨x, hx, hxn⟩
      · intro hall2 _
        exact absurd hxn (hall2 x hx)

/-- C3 witness: one completed-with-error, one completed-without-error →
the hash is returned; and a run where both completed broadcasts erred
raises the first error. -/
theorem multisend_dispatcher_result_witness :
    (signAndMultisendTx 77 [some "err a", none] = Except.ok 77) ∧
    (signAndMultisendTx 77 [some "err a", some "err b"] =
      Except.error (some "err a")) :=
  ⟨(multisend_dispatcher_result 77 [some "err a", none]).1.mpr
      (Or.inr ⟨none, by simp, rfl⟩),
   (multisend_dispatcher_result 77 [some "err a", some "err b"]).2
      (by decide) (by decide)⟩

/-! ## C4: nonce rebase only when idle -/

/-- C4 counterexample: at `outstanding = 0` and `now − last_fulfill_action`
exactly 4 seconds the claim (`≥ 4`) says `refresh_nonce` is invoked, but
the source condition is the strict `time.time() - self.last_fulfill_action > 4`
(service.py line 109), so no refresh happens. -/
theorem idle_refresh_boundary_cex :
    ((0 : Int) = 0 ∧ (10 : Int) - 6 ≥ 4) ∧
    WorkerAction.refreshNonce ∉
      (submitFulfillEvent 0 10 { outstanding := 0, lastFulfillAction := 6 }).1 := by
  decide

/-- C4 amended: `submit_fulfill_event` invokes `refresh_nonce` exactly when
`outstanding_fulfillments = 0` and `now − last_fulfill_action` is strictly
greater than 4 seconds; in particular it is never invoked while
`outstanding_fulfillments > 0`. -/
theorem idle_refresh_exact_condition (delayBlocks now : Int) (st : WorkerState) :
    (WorkerAction.refreshNonce ∈ (submitFulfillEvent delayBlocks now st).1 ↔
      st.outstanding = 0 ∧ now - st.lastFulfillAction > 4) ∧
    (st.outstanding > 0 →
      WorkerAction.refreshNonce ∉ (submitFulfillEvent delayBlocks now st).1) := by
  unfold submitFulfillEvent
  by_cases hidle : st.outstanding = 0 ∧ now - st.lastFulfillAction > 4
  · rw [if_pos hidle]
    by_cases hd : delayBlocks ≠ 0 <;> simp_all
  · rw [if_neg hidle]
    by_cases hd : delayBlocks ≠ 0 <;> simp_all

/-- C4 witness: with `outstanding = 0` and 5 seconds elapsed the refresh
fires; with `outstanding = 2` it does not. -/
theorem idle_refresh_exact_condition_witness :
    (WorkerAction.refreshNonce ∈
      (submitFulfillEvent 0 10 { outstanding := 0, lastFulfillAction := 5 }).1) ∧
    (WorkerAction.refreshNonce ∉
      (submitFulfillEvent 0 10 { outstanding := 2, lastFulfillAction := 5 }).1) :=
  ⟨(idle_refresh_exact_condition 0 10 { outstanding := 0, lastFulfillAction := 5 }).1.mpr
      (by constructor <;> decide),
   (idle_refresh_exact_condition 0 10 { outstanding := 2, lastFulfillAction := 5 }).2
      (by decide)⟩

/-! ## C5: nonce increments -/

/-- C5 counterexample: when `contract_function.build_transaction` raises
after `build_base_tx` has already run, the cached nonce moves from 5 to 6
while zero signed transactions are handed to the send path, refuting
"no increment occurs without such a transaction". -/
theorem nonce_increment_on_build_failure_cex :
    fulfillPipeline 5 (some StepFail.build) =
      (Except.error StepFail.build, 6, []) ∧ (6 : Int) = 5 + 1 := by
  constructor <;> rfl

/-- C5 amended: the cached nonce increments by exactly one per
`build_base_tx` call, i.e. one per fulfillment attempt; a signed
transaction carrying the drawn nonce is handed to the send path exactly
when neither building nor signing failed; when building or signing fails
after the draw, the increment persists with no transaction handed. -/
theorem nonce_increment_per_build (cachedNonce : Int) (fail : Option StepFail) :
    ((fulfillPipeline cachedNonce fail).2.1 = cachedNonce + 1) ∧
    ((fulfillPipeline cachedNonce fail).2.2.length = 1 ↔
      fail = none ∨ fail = some StepFail.send) ∧
    (∀ n ∈ (fulfillPipeline cachedNonce fail).2.2, n = cachedNonce) := by
  rcases fail with _ | f
  · simp [fulfillPipeline, buildBaseTx]
  · cases f <;> simp [fulfillPipeline, buildBaseTx]

/-- C5 amended witness: a clean run from nonce 9 hands exactly the signed
tx with nonce 9 and leaves the cache at 10. -/
theorem nonce_increment_per_build_witness :
    ((fulfillPipeline 9 none).2.1 = 9 + 1) ∧
    ((fulfillPipeline 9 none).2.2.length = 1) ∧
    (∀ n ∈ (fulfillPipeline 9 none).2.2, n = 9) :=
  ⟨(nonce_increment_per_build 9 none).1,
   (nonce_increment_per_build 9 none).2.1.mpr (Or.inl rfl),
   (nonce_increment_per_build 9 none).2.2⟩

/-! ## C6: one verbatim fulfillment call -/

/-- C6. For every request event it processes, the worker makes exactly one
`fulfill_random_words` call, whose commitment copies `blockNum` from the
event block number and the other four fields from the decoded args
verbatim, and whose randomness lies in `[0, 2^256)`. -/
theorem fulfill_event_single_verbatim_call (seed : Nat) (e : RequestEvent) :
    (fulfillEventCalls seed e).length = 1 ∧
    ∀ c ∈ fulfillEventCalls seed e,
      c.requestId = e.requestId ∧
      c.rc.blockNum = e.blockNumber ∧
      c.rc.subId = e.subId ∧
      c.rc.callbackGasLimit = e.callbackGasLimit ∧
      c.rc.numWords = e.numWords ∧
      c.rc.sender = e.sender ∧
      c.randomness < 2 ^ 256 := by
  refine ⟨rfl, ?_⟩
  intro c hc
  have hc' : c = { requestId := e.requestId,
                   randomness := secretsRandbelow seed (2 ^ 256),
                   rc := { blockNum := e.blockNumber, subId := e.subId,
                           callbackGasLimit := e.callbackGasLimit,
                           numWords := e.numWords, sender := e.sender } } := by
    simpa [fulfillEventCalls] using hc
  subst hc'
  refine ⟨rfl, rfl, rfl, rfl, rfl, rfl, ?_⟩
  exact Nat.mod_lt seed (Nat.pos_pow_of_pos 256 (by norm_num))

/-- C6 witness: the single-request scenario of the spec, request id 7 at
block 1000500, with seed 3. -/
theorem fulfill_event_single_verbatim_call_witness :
    (fulfillEventCalls 3
      { requestId := 7, subId := 1, callbackGasLimit := 200000, numWords := 1,
        sender := 10, blockNumber := 1000500 }).length = 1 ∧
    ({ requestId := 7, randomness := 3,
       rc := { blockNum := 1000500, subId := 1, callbackGasLimit := 200000,
               numWords := 1, sender := 10 } } : FulfillCall).randomness < 2 ^ 256 :=
  ⟨(fulfill_event_single_verbatim_call 3
      { requestId := 7, subId := 1, callbackGasLimit := 200000, numWords := 1,
        sender := 10, blockNumber := 1000500 }).1,
   ((fulfill_event_single_verbatim_call 3
      { requestId := 7, subId := 1, callbackGasLimit := 200000, numWords := 1,
        sender := 10, blockNumber := 1000500 }).2 _ (by decide)).2.2.2.2.2.2⟩

/-! ## C7: subscribe scanner error flow -/

/-- C7 counterexample: an error raised inside the backfill phase is caught
by the try/except inside `_backfill` itself, so the run does not exit to
the supervisor: `_run_subscription` proceeds normally and the supervisor
loop performs no alert, only the unconditional reconnect sleep. -/
theorem backfill_error_swallowed_cex :
    runSubscriptionOnce (some "backfill get_logs failed") none = Except.ok () ∧
    superviseOnce (runSubscriptionOnce (some "backfill get_logs failed") none) =
      [SupervisorAction.sleepReconnect] :=
  ⟨rfl, rfl⟩

/-- C7 amended: an error in the live subscription phase (or in
establishing the subscription) exits to the supervisor, which alerts and
reconnects after 2 seconds; an error inside the backfill phase is printed
and swallowed locally and never reaches the supervisor, whatever it is. -/
theorem subscribe_error_flow (backfillErr liveErr : Option String) :
    (runSubscriptionOnce backfillErr liveErr = Except.ok () ↔ liveErr = none) ∧
    (∀ e, liveErr = some e →
      runSubscriptionOnce backfillErr liveErr = Except.error e ∧
      superviseOnce (runSubscriptionOnce backfillErr liveErr) =
        [SupervisorAction.alert, SupervisorAction.sleepReconnect]) ∧
    (runSubscriptionOnce backfillErr none = Except.ok ()) := by
  cases backfillErr <;> cases liveErr <;>
    simp [runSubscriptionOnce, backfillRun, superviseOnce]

/-- C7 amended witness: a live-phase disconnect error propagates, is
alerted, and is followed by the reconnect sleep. -/
theorem subscribe_error_flow_witness :
    runSubscriptionOnce none (some "ws closed") = Except.error "ws closed" ∧
    superviseOnce (runSubscriptionOnce none (some "ws closed")) =
      [SupervisorAction.alert, SupervisorAction.sleepReconnect] :=
  (subscribe_error_flow none (some "ws closed")).2.1 "ws closed" rfl

/-! ## C8: scan start clamping -/

/-- C8 counterexample: with chain head 100, the bootstrap cursor is
`max(100 - 1900, 1) = 1`; the first productive iteration then computes
`scan_block = 1 - 50 = -49` with no clamp, so `get_logs` is invoked with
a from-block of -49, below 1. -/
theorem scan_start_unclamped_cex :
    bootstrapLastBlock 100 = 1 ∧
    scanBounds (bootstrapLastBlock 100) 100 = some (-49, 100) ∧
    (-49 : Int) < 1 := by
  refine ⟨rfl, ?_, by decide⟩
  simp [bootstrapLastBlock, scanBounds]

/-- C8 amended: `scan_block = last_block - 50` is not clamped; the
from-block handed to `get_logs` is at least 1 exactly when the cursor is
at least 51, and the bootstrap cursor `max(chain_head - 1900, 1)` is at
least 51 exactly when the chain head is at least 1951. -/
theorem scan_start_clamp_amended (lastBlock currentBlock s e chainHead : Int)
    (h : scanBounds lastBlock currentBlock = some (s, e)) :
    s = lastBlock - 50 ∧ (1 ≤ s ↔ 51 ≤ lastBlock) ∧
    (51 ≤ bootstrapLastBlock chainHead ↔ 1951 ≤ chainHead) := by
  unfold scanBounds at h
  by_cases hle : currentBlock ≤ lastBlock
  · rw [if_pos hle] at h
    exact Option.noConfusion h
  · rw [if_neg hle] at h
    have hpair := Option.some.inj h
    have hs : s = lastBlock - 50 := by
      have hfst := congrArg Prod.fst hpair
      simpa using hfst.symm
    refine ⟨hs, by omega, ?_⟩
    unfold bootstrapLastBlock
    rw [le_max_iff]
    omega

/-- C8 amended witness: cursor 60 yields from-block 10 ≥ 1, and 60 ≥ 51. -/
theorem scan_start_clamp_amended_witness :
    (10 : Int) = 60 - 50 ∧ ((1 : Int) ≤ 10 ↔ (51 : Int) ≤ 60) ∧
    ((51 : Int) ≤ bootstrapLastBlock 5000 ↔ (1951 : Int) ≤ 5000) :=
  scan_start_clamp_amended 60 100 10 100 5000 (by decide)

/-! ## C9: USE_VRF_V25 client construction -/

/-- C9. `Config.create_multisend_client` and `Config.create_client` pass
the keyword argument `use_vrf_v25`, but neither
`MultisendChainVrfClient.__init__` nor `ChainVrfClient.__init__` declares
such a parameter, so the calls cannot bind and raise `TypeError` for every
configuration: no client honoring `USE_VRF_V25` is ever constructed. -/
theorem create_client_kwargs_rejected :
    kwargsAccepted multisendChainVrfClientInitParams createMultisendClientKwargs = false ∧
    kwargsAccepted chainVrfClientInitParams createClientKwargs = false := by
  decide

/-! ## C10: environment overrides dotenv -/

lemma foldl_dictSet_not_mem (ps : List (String × String)) (d : String → Option String)
    (k : String) (h : k ∉ ps.map Prod.fst) : ps.foldl dictSet d k = d k := by
  induction ps generalizing d with
  | nil => rfl
  | cons p rest ih =>
    simp only [List.map_cons, List.mem_cons] at h
    push_neg at h
    rw [List.foldl_cons, ih (dictSet d p) h.2]
    simp [dictSet, h.1]

lemma foldl_dictSet_mem (ps : List (String × String)) (d : String → Option String)
    (k v : String) (hnd : (ps.map Prod.fst).Nodup) (hm : (k, v) ∈ ps) :
    ps.foldl dictSet d k = some v := by
  induction ps generalizing d with
  | nil => cases hm
  | cons p rest ih =>
    have hnd' : p.1 ∉ rest.map Prod.fst ∧ (rest.map Prod.fst).Nodup := by
      rw [List.map_cons, List.nodup_cons] at hnd
      exact hnd
    rw [List.foldl_cons]
    rcases List.mem_cons.mp hm with h | h
    · have hp : p = (k, v) := h.symm
      subst hp
      rw [foldl_dictSet_not_mem rest (dictSet d (k, v)) k hnd'.1]
      simp [dictSet]
    · exact ih (dictSet d p) hnd'.2 h

/-- C10. For every key, a value present in `os.environ` wins over the
dotenv file in the merged `self.config` dict; when the key is absent from
the environment the lookup falls back to exactly the dotenv dict. -/
theorem config_env_overrides_dotenv (dotenvVals envVals : List (String × String))
    (k v : String) (hnd : (envVals.map Prod.fst).Nodup) :
    ((k, v) ∈ envVals → configDict dotenvVals envVals k = some v) ∧
    (k ∉ envVals.map Prod.fst →
      configDict dotenvVals envVals k = dictOfPairs dotenvVals k) := by
  unfold configDict dictOfPairs
  rw [List.foldl_append]
  exact ⟨fun hm => foldl_dictSet_mem envVals _ k v hnd hm,
         fun hnm => foldl_dictSet_not_mem envVals _ k hnm⟩

/-- C10 witness: `CHAIN_ID` defined in both sources resolves to the
environment value; `POLL_DELAY` defined only in the dotenv file resolves
to the dotenv value. -/
theorem config_env_overrides_dotenv_witness :
    configDict [("CHAIN_ID", "43114"), ("POLL_DELAY", "2.0")]
      [("CHAIN_ID", "8453")] "CHAIN_ID" = some "8453" ∧
    configDict [("CHAIN_ID", "43114"), ("POLL_DELAY", "2.0")]
      [("CHAIN_ID", "8453")] "POLL_DELAY" =
      dictOfPairs [("CHAIN_ID", "43114"), ("POLL_DELAY", "2.0")] "POLL_DELAY" :=
  ⟨(config_env_overrides_dotenv [("CHAIN_ID", "43114"), ("POLL_DELAY", "2.0")]
      [("CHAIN_ID", "8453")] "CHAIN_ID" "8453" (by decide)).1 (by decide),
   (config_env_overrides_dotenv [("CHAIN_ID", "43114"), ("POLL_DELAY", "2.0")]
      [("CHAIN_ID", "8453")] "POLL_DELAY" "x" (by decide)).2 (by decide)⟩

/-! ## Scanner run lemmas (for C1 and C2) -/

lemma runScan_nil (delayBlocks : Int) (S : List Nat) :
    runScan delayBlocks S [] = (S, []) := rfl

lemma runScan_cons (delayBlocks : Int) (S : List Nat) (t : ScanTick) (ts : List ScanTick) :
    runScan delayBlocks S (t :: ts) =
      ((runScan delayBlocks (processWindow delayBlocks t.scanEnd S t.window).1 ts).1,
       (processWindow delayBlocks t.scanEnd S t.window).2 ++
         (runScan delayBlocks (processWindow delayBlocks t.scanEnd S t.window).1 ts).2) := rfl

lemma runHandleRequested_nil (S : List Nat) :
    runHandleRequested S [] = (S, []) := rfl

lemma runHandleRequested_cons (S : List Nat) (e : RequestEvent) (es : List RequestEvent) :
    runHandleRequested S (e :: es) =
      ((runHandleRequested (handleRequestedEvent S e).1 es).1,
       (handleRequestedEvent S e).2 ++
         (runHandleRequested (handleRequestedEvent S e).1 es).2) := rfl

lemma processWindow_dispatch_mem (delayBlocks scanEndBlock : Int) (S : List Nat)
    (w : ScanWindow) (x : RequestEvent) :
    x ∈ (processWindow delayBlocks scanEndBlock S w).2 ↔
      x ∈ w.requested ∧ x.requestId ∉ w.fulfilled.map (fun y => y.requestId) ∧
      x.requestId ∉ S ∧ x.blockNumber ≤ scanEndBlock - delayBlocks := by
  simp only [processWindow, List.mem_filter, decide_eq_true_eq, List.mem_map]
  tauto

lemma processWindow_set_eq (delayBlocks scanEndBlock : Int) (S : List Nat) (w : ScanWindow) :
    (processWindow delayBlocks scanEndBlock S w).1 =
      S ++ (processWindow delayBlocks scanEndBlock S w).2.map (fun x => x.requestId) := rfl

lemma processWindow_dispatch_sublist (delayBlocks scanEndBlock : Int) (S : List Nat)
    (w : ScanWindow) :
    (processWindow delayBlocks scanEndBlock S w).2.Sublist w.requested := by
  simp only [processWindow]
  exact ((List.filter_sublist _).trans (List.filter_sublist _)).trans (List.filter_sublist _)

/-- Events eligible for dispatch in a tick, ignoring the local set: in the
requested logs, not in the fulfilled logs of the same window, and old
enough for the delay filter. -/
def eligibleInTick (delayBlocks : Int) (t : ScanTick) (x : RequestEvent) : Prop :=
  x ∈ t.window.requested ∧
  x.requestId ∉ t.window.fulfilled.map (fun y => y.requestId) ∧
  x.blockNumber ≤ t.scanEnd - delayBlocks

lemma processWindow_eligible_in_set (delayBlocks : Int) (t : ScanTick) (S : List Nat)
    (x : RequestEvent) (h : eligibleInTick delayBlocks t x) :
    x.requestId ∈ (processWindow delayBlocks t.scanEnd S t.window).1 := by
  rw [processWindow_set_eq, List.mem_append]
  by_cases hS : x.requestId ∈ S
  · exact Or.inl hS
  · refine Or.inr (List.mem_map.mpr ⟨x, ?_, rfl⟩)
    exact (processWindow_dispatch_mem _ _ _ _ _).mpr ⟨h.1, h.2.1, hS, h.2.2⟩

lemma runScan_set_mono (delayBlocks : Int) (S : List Nat) (ts : List ScanTick)
    (a : Nat) (ha : a ∈ S) : a ∈ (runScan delayBlocks S ts).1 := by
  induction ts generalizing S with
  | nil => simpa [runScan_nil] using ha
  | cons t ts ih =>
    rw [runScan_cons]
    exact ih _ (by rw [processWindow_set_eq]; exact List.mem_append_left _ ha)

lemma runScan_eligible_closure (delayBlocks : Int) (S : List Nat) (ts : List ScanTick) :
    ∀ t ∈ ts, ∀ x, eligibleInTick delayBlocks t x →
      x.requestId ∈ (runScan delayBlocks S ts).1 := by
  induction ts generalizing S with
  | nil => intro t ht; cases ht
  | cons t0 ts ih =>
    intro t ht x hx
    rw [runScan_cons]
    rcases List.mem_cons.mp ht with h | h
    · subst h
      exact runScan_set_mono _ _ _ _ (processWindow_eligible_in_set _ _ _ _ hx)
    · exact ih _ t h x hx

lemma runScan_covered_no_dispatch (delayBlocks : Int) (S : List Nat) (ts : List ScanTick)
    (hcov : ∀ t ∈ ts, ∀ x, eligibleInTick delayBlocks t x → x.requestId ∈ S) :
    (runScan delayBlocks S ts).2 = [] ∧ (runScan delayBlocks S ts).1 = S := by
  induction ts with
  | nil => exact ⟨rfl, rfl⟩
  | cons t ts ih =>
    have hd1 : (processWindow delayBlocks t.scanEnd S t.window).2 = [] := by
      rw [List.eq_nil_iff_forall_not_mem]
      intro x hx
      have hx' := (processWindow_dispatch_mem _ _ _ _ _).mp hx
      exact hx'.2.2.1 (hcov t (List.mem_cons_self _ _) x ⟨hx'.1, hx'.2.1, hx'.2.2.2⟩)
    have hS1 : (processWindow delayBlocks t.scanEnd S t.window).1 = S := by
      rw [processWindow_set_eq, hd1]
      simp
    rw [runScan_cons, hd1, hS1]
    have ihr := ih (fun t' ht' x hx => hcov t' (List.mem_cons_of_mem _ ht') x hx)
    exact ⟨by rw [List.nil_append]; exact ihr.1, ihr.2⟩

lemma runScan_append (delayBlocks : Int) (S : List Nat) (as bs : List ScanTick) :
    runScan delayBlocks S (as ++ bs) =
      ((runScan delayBlocks (runScan delayBlocks S as).1 bs).1,
       (runScan delayBlocks S as).2 ++ (runScan delayBlocks (runScan delayBlocks S as).1 bs).2) := by
  induction as generalizing S with
  | nil => simp [runScan_nil]
  | cons a as ih =>
    rw [List.cons_append, runScan_cons, runScan_cons, ih]
    simp [List.append_assoc]

lemma runScan_dispatch_fresh_nodup (delayBlocks : Int) (S : List Nat) (ts : List ScanTick)
    (hnd : ∀ t ∈ ts, (t.window.requested.map (fun x => x.requestId)).Nodup) :
    ((runScan delayBlocks S ts).2.map (fun x => x.requestId)).Nodup ∧
    ∀ x ∈ (runScan delayBlocks S ts).2, x.requestId ∉ S := by
  induction ts generalizing S with
  | nil => simp [runScan_nil]
  | cons t ts ih =>
    have hnd1 : ((processWindow delayBlocks t.scanEnd S t.window).2.map
        (fun x => x.requestId)).Nodup :=
      List.Nodup.sublist
        (List.Sublist.map _ (processWindow_dispatch_sublist _ _ _ _))
        (hnd t (List.mem_cons_self _ _))
    have hfresh1 : ∀ x ∈ (processWindow delayBlocks t.scanEnd S t.window).2,
        x.requestId ∉ S := fun x hx =>
      ((processWindow_dispatch_mem _ _ _ _ _).mp hx).2.2.1
    have ihr := ih (processWindow delayBlocks t.scanEnd S t.window).1
      (fun t' ht' => hnd t' (List.mem_cons_of_mem _ ht'))
    rw [runScan_cons]
    constructor
    · rw [List.map_append, List.nodup_append]
      refine ⟨hnd1, ihr.1, ?_⟩
      intro a ha1 ha2
      obtain ⟨x1, hx1, hxa1⟩ := List.mem_map.mp ha1
      obtain ⟨x2, hx2, hxa2⟩ := List.mem_map.mp ha2
      have : x2.requestId ∉ (processWindow delayBlocks t.scanEnd S t.window).1 :=
        ihr.2 x2 hx2
      apply this
      rw [processWindow_set_eq, List.mem_append]
      exact Or.inr (by rw [hxa2, ← hxa1]; exact List.mem_map.mpr ⟨x1, hx1, rfl⟩)
    · intro x hx
      rcases List.mem_append.mp hx with h | h
      · exact hfresh1 x h
      · intro hxS
        exact ihr.2 x h (by rw [processWindow_set_eq]; exact List.mem_append_left _ hxS)

lemma handleRequested_dispatch_mem (S : List Nat) (e x : RequestEvent) :
    x ∈ (handleRequestedEvent S e).2 ↔ x = e ∧ e.requestId ∉ S := by
  by_cases h : e.requestId ∈ S <;> simp [handleRequestedEvent, h]

lemma handleRequested_set_mono (S : List Nat) (e : RequestEvent) (a : Nat) (ha : a ∈ S) :
    a ∈ (handleRequestedEvent S e).1 := by
  by_cases h : e.requestId ∈ S <;> simp [handleRequestedEvent, h, ha]

lemma handleRequested_id_in_set (S : List Nat) (e : RequestEvent) :
    e.requestId ∈ (handleRequestedEvent S e).1 := by
  by_cases h : e.requestId ∈ S <;> simp [handleRequestedEvent, h]

lemma runHandleRequested_set_mono (S : List Nat) (es : List RequestEvent)
    (a : Nat) (ha : a ∈ S) : a ∈ (runHandleRequested S es).1 := by
  induction es generalizing S with
  | nil => simpa [runHandleRequested_nil] using ha
  | cons e es ih =>
    rw [runHandleRequested_cons]
    exact ih _ (handleRequested_set_mono S e a ha)

lemma runHandleRequested_mem_closure (S : List Nat) (es : List RequestEvent) :
    ∀ x ∈ es, x.requestId ∈ (runHandleRequested S es).1 := by
  induction es generalizing S with
  | nil => intro x hx; cases hx
  | cons e es ih =>
    intro x hx
    rw [runHandleRequested_cons]
    rcases List.mem_cons.mp hx with h | h
    · subst h
      exact runHandleRequested_set_mono _ _ _ (handleRequested_id_in_set S x)
    · exact ih _ x h

lemma runHandleRequested_covered (S : List Nat) (es : List RequestEvent)
    (hcov : ∀ x ∈ es, x.requestId ∈ S) :
    (runHandleRequested S es).2 = [] ∧ (runHandleRequested S es).1 = S := by
  induction es with
  | nil => exact ⟨rfl, rfl⟩
  | cons e es ih =>
    have he : e.requestId ∈ S := hcov e (List.mem_cons_self _ _)
    rw [runHandleRequested_cons]
    simp only [handleRequestedEvent, if_pos he]
    have ihr := ih (fun x hx => hcov x (List.mem_cons_of_mem _ hx))
    exact ⟨by rw [List.nil_append]; exact ihr.1, ihr.2⟩

lemma runHandleRequested_append (S : List Nat) (as bs : List RequestEvent) :
    runHandleRequested S (as ++ bs) =
      ((runHandleRequested (runHandleRequested S as).1 bs).1,
       (runHandleRequested S as).2 ++
         (runHandleRequested (runHandleRequested S as).1 bs).2) := by
  induction as generalizing S with
  | nil => simp [runHandleRequested_nil]
  | cons a as ih =>
    rw [List.cons_append, runHandleRequested_cons, runHandleRequested_cons, ih]
    simp [List.append_assoc]

lemma runHandleRequested_fresh_nodup (S : List Nat) (es : List RequestEvent) :
    ((runHandleRequested S es).2.map (fun x => x.requestId)).Nodup ∧
    ∀ x ∈ (runHandleRequested S es).2, x.requestId ∉ S := by
  induction es generalizing S with
  | nil => simp [runHandleRequested_nil]
  | cons e es ih =>
    rw [runHandleRequested_cons]
    by_cases h : e.requestId ∈ S
    · simp only [handleRequestedEvent, if_pos h]
      have ihr := ih S
      exact ⟨by simpa using ihr.1, by simpa using ihr.2⟩
    · simp only [handleRequestedEvent, if_neg h]
      have ihr := ih (S ++ [e.requestId])
      constructor
      · rw [List.map_append, List.nodup_append]
        refine ⟨by simp, ihr.1, ?_⟩
        intro a ha1 ha2
        obtain ⟨x2, hx2, hxa2⟩ := List.mem_map.mp ha2
        have hfresh := ihr.2 x2 hx2
        simp only [List.map_cons, List.map_nil, List.mem_singleton] at ha1
        apply hfresh
        rw [hxa2, ← ha1]
        simp
      · intro x hx
        rcases List.mem_append.mp hx with hx1 | hx1
        · simp only [List.mem_singleton] at hx1
          rw [hx1]
          exact h
        · intro hxS
          exact ihr.2 x hx1 (List.mem_append_left _ hxS)

lemma runHandleRequested_dispatch_subset (S : List Nat) (es : List RequestEvent) :
    ∀ x ∈ (runHandleRequested S es).2, x ∈ es := by
  induction es generalizing S with
  | nil => intro x hx; cases hx
  | cons e es ih =>
    intro x hx
    rw [runHandleRequested_cons] at hx
    rcases List.mem_append.mp hx with h | h
    · exact List.mem_cons.mpr (Or.inl ((handleRequested_dispatch_mem _ _ _).mp h).1)
    · exact List.mem_cons.mpr (Or.inr (ih _ x h))

/-! ## C1: exactly-once dispatch -/

/-- C1. Per-request dedup in both scanners: over any run of the poll
scanner whose individual log responses list each request id once, the
dispatched request ids are pairwise distinct, and replaying the same
sequence of windows dispatches nothing new; likewise the subscribe
handler dispatches pairwise-distinct ids and replaying the same event
stream dispatches nothing new. Both follow from inserting the id into
the local fulfilled-ids set before dispatch and filtering against it. -/
theorem dispatch_exactly_once (delayBlocks : Int) (ts : List ScanTick)
    (es : List RequestEvent)
    (hnd : ∀ t ∈ ts, (t.window.requested.map (fun x => x.requestId)).Nodup) :
    ((runScan delayBlocks [] ts).2.map (fun x => x.requestId)).Nodup ∧
    (runScan delayBlocks [] (ts ++ ts)).2 = (runScan delayBlocks [] ts).2 ∧
    ((runHandleRequested [] es).2.map (fun x => x.requestId)).Nodup ∧
    (runHandleRequested [] (es ++ es)).2 = (runHandleRequested [] es).2 := by
  refine ⟨(runScan_dispatch_fresh_nodup _ _ _ hnd).1, ?_,
          (runHandleRequested_fresh_nodup _ _).1, ?_⟩
  · rw [runScan_append]
    have h2 := runScan_covered_no_dispatch delayBlocks (runScan delayBlocks [] ts).1 ts
      (fun t ht x hx => runScan_eligible_closure delayBlocks [] ts t ht x hx)
    simp [h2.1]
  · rw [runHandleRequested_append]
    have h2 := runHandleRequested_covered (runHandleRequested [] es).1 es
      (fun x hx => runHandleRequested_mem_closure [] es x hx)
    simp [h2.1]

/-- C1 witness: the single request id 7 appears in two overlapping poll
windows and twice in the subscribe stream; in both cases it is dispatched
exactly once and a full replay dispatches nothing new. -/
theorem dispatch_exactly_once_witness :
    (((runScan 0 []
        [⟨⟨[⟨7, 1, 200000, 1, 10, 1000500⟩], []⟩, 1000600⟩,
         ⟨⟨[⟨7, 1, 200000, 1, 10, 1000500⟩], []⟩, 1000650⟩]).2.map
        (fun x => x.requestId)).Nodup) ∧
    ((runScan 0 []
        ([⟨⟨[⟨7, 1, 200000, 1, 10, 1000500⟩], []⟩, 1000600⟩,
          ⟨⟨[⟨7, 1, 200000, 1, 10, 1000500⟩], []⟩, 1000650⟩] ++
         [⟨⟨[⟨7, 1, 200000, 1, 10, 1000500⟩], []⟩, 1000600⟩,
          ⟨⟨[⟨7, 1, 200000, 1, 10, 1000500⟩], []⟩, 1000650⟩])).2 =
      (runScan 0 []
        [⟨⟨[⟨7, 1, 200000, 1, 10, 1000500⟩], []⟩, 1000600⟩,
         ⟨⟨[⟨7, 1, 200000, 1, 10, 1000500⟩], []⟩, 1000650⟩]).2) ∧
    (((runHandleRequested []
        [⟨7, 1, 200000, 1, 10, 1000500⟩, ⟨7, 1, 200000, 1, 10, 1000500⟩]).2.map
        (fun x => x.requestId)).Nodup) ∧
    ((runHandleRequested []
        ([⟨7, 1, 200000, 1, 10, 1000500⟩, ⟨7, 1, 200000, 1, 10, 1000500⟩] ++
         [⟨7, 1, 200000, 1, 10, 1000500⟩, ⟨7, 1, 200000, 1, 10, 1000500⟩])).2 =
      (runHandleRequested []
        [⟨7, 1, 200000, 1, 10, 1000500⟩, ⟨7, 1, 200000, 1, 10, 1000500⟩]).2) :=
  dispatch_exactly_once 0
    [⟨⟨[⟨7, 1, 200000, 1, 10, 1000500⟩], []⟩, 1000600⟩,
     ⟨⟨[⟨7, 1, 200000, 1, 10, 1000500⟩], []⟩, 1000650⟩]
    [⟨7, 1, 200000, 1, 10, 1000500⟩, ⟨7, 1, 200000, 1, 10, 1000500⟩]
    (by decide)

/-! ## C2: delay-mode filter -/

/-- C2 counterexample: in delay mode (`delay_blocks = 20`) with the chain
head at 1000100, a request only 5 blocks old arriving on the live
subscription path is dispatched anyway: `_handle_requested_event` never
consults `delay_blocks`, so the claimed filter does not hold in the live
phase. -/
theorem live_phase_no_delay_filter_cex :
    (subscribeLiveStep []
        (LogEntry.requested ⟨11, 1, 200000, 1, 10, 1000095⟩)).2 =
      [⟨11, 1, 200000, 1, 10, 1000095⟩] ∧
    ¬ ((1000095 : Int) ≤ 1000100 - 20) := by
  constructor
  · decide
  · decide

/-- C2 amended: every request the poll scanner dispatches satisfies
`block_number ≤ scan_end_block − delay_blocks`, and, when
`delay_blocks ≠ 0`, every request the subscribe backfill dispatches
satisfies `block_number ≤ current_block − delay_blocks`; the live
subscription phase applies no delay filter. -/
theorem delay_filter_poll_and_backfill (delayBlocks scanEndBlock currentBlock : Int)
    (S T : List Nat) (w v : ScanWindow) :
    (∀ x ∈ (processWindow delayBlocks scanEndBlock S w).2,
      x.blockNumber ≤ scanEndBlock - delayBlocks) ∧
    (delayBlocks ≠ 0 → ∀ x ∈ (backfillWindow delayBlocks currentBlock T v).2,
      x.blockNumber ≤ currentBlock - delayBlocks) := by
  constructor
  · intro x hx
    exact ((processWindow_dispatch_mem _ _ _ _ _).mp hx).2.2.2
  · intro hd x hx
    simp only [backfillWindow, if_pos hd] at hx
    have hx2 := runHandleRequested_dispatch_subset _ _ x hx
    simpa using (List.mem_filter.mp hx2).2

/-- C2 amended witness: with `delay_blocks = 20` and window end 1000100,
the request at block 1000050 is dispatched by both the poll pipeline and
the backfill pipeline and satisfies the bound. -/
theorem delay_filter_poll_and_backfill_witness :
    (⟨12, 1, 200000, 1, 10, 1000050⟩ : RequestEvent) ∈
      (processWindow 20 1000100 [] ⟨[⟨12, 1, 200000, 1, 10, 1000050⟩], []⟩).2 ∧
    ((⟨12, 1, 200000, 1, 10, 1000050⟩ : RequestEvent).blockNumber ≤ (1000100 : Int) - 20) ∧
    (⟨12, 1, 200000, 1, 10, 1000050⟩ : RequestEvent) ∈
      (backfillWindow 20 1000100 [] ⟨[⟨12, 1, 200000, 1, 10, 1000050⟩], []⟩).2 ∧
    ((⟨12, 1, 200000, 1, 10, 1000050⟩ : RequestEvent).blockNumber ≤ (1000100 : Int) - 20) :=
  ⟨by decide,
   (delay_filter_poll_and_backfill 20 1000100 1000100 [] []
      ⟨[⟨12, 1, 200000, 1, 10, 1000050⟩], []⟩
      ⟨[⟨12, 1, 200000, 1, 10, 1000050⟩], []⟩).1
      ⟨12, 1, 200000, 1, 10, 1000050⟩ (by decide),
   by decide,
   (delay_filter_poll_and_backfill 20 1000100 1000100 [] []
      ⟨[⟨12, 1, 200000, 1, 10, 1000050⟩], []⟩
      ⟨[⟨12, 1, 200000, 1, 10, 1000050⟩], []⟩).2 (by decide)
      ⟨12, 1, 200000, 1, 10, 1000050⟩ (by decide)⟩
